import Mathlib

/-!
Verification development for the coconut/options game simulation.

The development shallowly embeds the core of the program:
`core/memory_logger.py` (episodic memory store), `core/engine.py`
(hit-probability model, coconut flight state machine, game-engine tick)
and `core/retail_agent.py` (retail target selection).

Floating-point values are modelled as rationals (`ℚ`).  Every random draw
(uniform hit draw, per-tick accuracy jitter, coconut speed, exploration
bonus, FOMO roll) and every externally supplied decision (market-derived
targets, the monkey agent's predicted defense strikes, the retail agent's
fallback target) is passed in explicitly as an oracle argument, so each
source function becomes a pure function of its state and its draws.
Python exceptions are modelled by `Option`: a function returns `none`
exactly when the source would raise.  Persistence (JSON save files),
logging output, and the memory side records written by
`simulate_slingshot_hit` into the two agents' `MemoryLogger`s are
orthogonal to the claims and are not threaded through the engine state;
the `MemoryLogger` operations themselves are modelled in full.
-/

/-- Python `list[-n:]`: the last `n` elements of a list. -/
def pyLast (xs : List ℚ) (n : ℕ) : List ℚ := xs.drop (xs.length - n)

/-- Python `int(q)` on a float: truncation toward zero. -/
def pyInt (q : ℚ) : ℤ := q.num.tdiv q.den

/-- Python `min(x :: xs, key=f)`: the first element attaining the minimal
key, scanning left to right and replacing only on a strictly smaller key. -/
def pickMinBy (f : ℚ → ℚ) (x : ℚ) (xs : List ℚ) : ℚ :=
  xs.foldl (fun acc y => if f y < f acc then y else acc) x

/-- Python `max(x :: xs, key=f)`: the first element attaining the maximal
key, scanning left to right and replacing only on a strictly larger key. -/
def pickMaxBy (f : ℚ → ℚ) (x : ℚ) (xs : List ℚ) : ℚ :=
  xs.foldl (fun acc y => if f y > f acc then y else acc) x

/-- Stable insertion used by `sortLe`: insert `x` in front of the first
element `y` with `le x y`. -/
def insertLe {α : Type} (le : α → α → Bool) (x : α) : List α → List α
  | [] => [x]
  | y :: ys => if le x y then x :: y :: ys else y :: insertLe le x ys

/-- Stable sort with respect to the boolean relation `le`, modelling
Python's stable `sorted` / `list.sort`. -/
def sortLe {α : Type} (le : α → α → Bool) : List α → List α
  | [] => []
  | x :: xs => insertLe le x (sortLe le xs)

/-- Does `needle` occur at the head of `hay`? -/
def charsHead : List Char → List Char → Bool
  | _, [] => true
  | [], _ :: _ => false
  | a :: as, b :: bs => a == b && charsHead as bs

/-- Does `needle` occur anywhere in `hay`? -/
def charsContain : List Char → List Char → Bool
  | [], needle => needle.isEmpty
  | h :: t, needle => charsHead (h :: t) needle || charsContain t needle

/-- Python `needle in hay` on strings: substring containment. -/
def strContain (hay needle : String) : Bool := charsContain hay.toList needle.toList

/-- ASCII lowering of one character, modelling Python `str.lower` on the
ASCII contents this program produces. -/
def charLower (c : Char) : Char :=
  if 'A' ≤ c ∧ c ≤ 'Z' then Char.ofNat (c.toNat + 32) else c

/-- Python `list.index` / the position a key receives in an
`enumerate`-built dict keyed by a duplicate-free list. -/
def list_index (x : ℚ) : List ℚ → ℕ
  | [] => 0
  | y :: ys => if y = x then 0 else list_index x ys + 1

/-!  ## Memory store (`core/memory_logger.py`)  -/

/-- A single memory entry (`Memory` in `memory_logger.py`).  The ISO
timestamp is modelled as a rational number of seconds. -/
structure Memory where
  content : String
  importance : ℚ
  timestamp : ℚ
  references : ℕ
deriving Repr

/-- The mutable state of `MemoryLogger` (the `logs/` persistence is a
swallowed side effect and not modelled). -/
structure MemoryLogger where
  agent_name : String
  max_memories : ℕ
  memories : List Memory

/-- The curation score of one memory:
`importance * (1 + references/10) * age_factor` with
`age_factor = 1 / (1 + age/86400)` (from `_curate_memories`). -/
def Memory.score (now : ℚ) (m : Memory) : ℚ :=
  let age := now - m.timestamp
  let age_factor := 1 / (1 + age / 86400)
  m.importance * (1 + (m.references : ℚ) / 10) * age_factor

/-- `MemoryLogger._curate_memories`: stable-sort all memories by score,
descending, and keep the top `max_memories`. -/
def curate_memories (now : ℚ) (st : MemoryLogger) : MemoryLogger :=
  let sorted := sortLe (fun a b => if Memory.score now b ≤ Memory.score now a then true else false)
    st.memories
  { st with memories := sorted.take st.max_memories }

/-- `MemoryLogger.add_memory`: append a fresh memory (references 0,
timestamp `now`), then curate if the count exceeds the capacity. -/
def add_memory (now : ℚ) (st : MemoryLogger) (content : String) (importance : ℚ) :
    MemoryLogger :=
  let st' := { st with memories :=
    st.memories ++ [{ content := content, importance := importance,
                      timestamp := now, references := 0 }] }
  if st'.memories.length > st.max_memories then curate_memories now st' else st'

/-- The relevance score one memory receives in
`MemoryLogger.get_relevant_memories`: substring bonuses for the strike
and spot price strings, a success/failure keyword bonus matching
`recent_success`, plus the exploration draw scaled by `0.1`. -/
def memory_relevance (strike_str spot_str : String) (recent_success : Bool)
    (draw : ℚ) (m : Memory) : ℚ :=
  let r1 : ℚ := if strContain m.content strike_str then 3/10 else 0
  let r2 : ℚ := if strContain m.content spot_str then 2/10 else 0
  let r3 : ℚ :=
    if recent_success then
      (if charsContain (m.content.toList.map charLower) "success".toList then 2/10 else 0)
    else (if charsContain (m.content.toList.map charLower) "fail".toList then 2/10 else 0)
  r1 + r2 + r3 + draw * (1/10)

/-- `MemoryLogger.get_relevant_memories`: score every memory; every memory
with strictly positive relevance is collected *and* has its `references`
counter incremented in place; the collected ones are sorted by relevance,
descending, and the top `limit` are returned together with the updated
store.  `draws i` is the exploration draw for the memory at index `i`. -/
def get_relevant_memories (st : MemoryLogger) (strike_str spot_str : String)
    (recent_success : Bool) (draws : ℕ → ℚ) (limit : ℕ) :
    List Memory × MemoryLogger :=
  let rels := st.memories.enum.map
    (fun p => (p.2, memory_relevance strike_str spot_str recent_success (draws p.1) p.2))
  let new_memories := rels.map
    (fun p => if p.2 > 0 then { p.1 with references := p.1.references + 1 } else p.1)
  let relevant := (rels.filter (fun p => if p.2 > 0 then true else false)).map
    (fun p => ({ p.1 with references := p.1.references + 1 }, p.2))
  let sorted := sortLe (fun a b => if b.2 ≤ a.2 then true else false) relevant
  ((sorted.take limit).map Prod.fst, { st with memories := new_memories })

/-!  ## Slingshots and the hit-probability model (`core/engine.py`)  -/

/-- One slingshot configuration from the portfolio catalog. -/
structure Slingshot where
  name : String
  power : ℚ
  accuracy : ℚ
  dte : ℤ
  option_type : String
deriving Repr

/-- `GameEngine._get_valid_strike`: a strike already in the universe is
returned unchanged, otherwise the nearest valid strike by absolute
distance (first such, as Python `min`).  `none` models the `ValueError`
Python's `min` raises on an empty universe. -/
def get_valid_strike (valid : List ℚ) (strike : ℚ) : Option ℚ :=
  if strike ∈ valid then some strike
  else
    match valid with
    | [] => none
    | v :: vs => some (pickMinBy (fun x => |x - strike|) v vs)

/-- The clamped hit probability of `GameEngine.simulate_slingshot_hit`.
`defended` records whether the monkey AI is enabled and predicted this
strike (in which case the base chance was halved). -/
def final_hit_chance (implied_vol gamma_at_strike : ℚ) (sling : Slingshot)
    (defended : Bool) (spot strike : ℚ) : ℚ :=
  let base_hit_chance := 1 / (1 + |spot - strike|)
  let base_hit_chance := if defended then base_hit_chance * (1/2) else base_hit_chance
  let wind_penalty := implied_vol / 100
  let gamma_penalty := gamma_at_strike / 10
  let decay_penalty := max (1/10) ((sling.dte : ℚ) / 30)
  let accuracy_bonus := sling.accuracy * (2/10)
  let power_factor := sling.power * (1/10)
  let option_mod : ℚ :=
    if sling.option_type = "call" then (if spot > strike then 11/10 else 9/10)
    else (if spot < strike then 11/10 else 9/10)
  let f := base_hit_chance * (1 - wind_penalty) * (1 - gamma_penalty)
    * (1 / decay_penalty) * (1 + accuracy_bonus) * (1 + power_factor) * option_mod
  max 0 (min f 1)

/-- `GameEngine.simulate_slingshot_hit`: snap the strike, compute the
clamped probability, draw (`hit_draw`) strictly below it for a hit, and
split the juice 0.7 (market maker) / 0.3 (retail) on a hit, 0/0 on a
miss.  `defense_strikes` is the oracle for the strikes of
`monkey_agent.predict_targets`; the defense-outcome memory records
written here live in the agents' `MemoryLogger`s and do not touch the
returned triple. -/
def simulate_slingshot_hit (valid : List ℚ) (implied_vol : ℚ) (gamma : ℚ → ℚ)
    (sling : Slingshot) (monkey_enabled : Bool) (defense_strikes : List ℚ)
    (hit_draw : ℚ) (spot strike_input : ℚ) : Option (Bool × ℚ × ℚ) :=
  match get_valid_strike valid strike_input with
  | none => none
  | some strike_price =>
    let defended : Bool :=
      if monkey_enabled then (if strike_price ∈ defense_strikes then true else false)
      else false
    let p := final_hit_chance implied_vol (gamma strike_price) sling defended spot strike_price
    let hit : Bool := if hit_draw < p then true else false
    let mm_juice : ℚ := if hit then 7/10 else 0
    let retail_juice : ℚ := if hit then 1 - mm_juice else 0
    some (hit, retail_juice, mm_juice)

/-!  ## Coconut flight state machine (`Coconut` in `core/engine.py`)  -/

/-- One in-flight coconut.  `option_type` of the dataclass is a copy of
`slingshot.option_type` made in `__post_init__` and is read through the
slingshot here. -/
structure Coconut where
  strike : ℚ
  x : ℚ
  y : ℚ
  target_x : ℚ
  target_y : ℚ
  slingshot : Slingshot
  t : ℚ
  speed : ℚ
  hit : Bool
  retail_juice : ℚ
  mm_juice : ℚ
  source_agent : String
  alive : Bool
  frames_remaining : ℤ

/-- `Coconut.update`: decrement the frame budget (expiry at `≤ 0`),
advance `t` by `speed * power` (arrival at `t ≥ 1`), otherwise recompute
the position from the *current* position: the x-interpolation is scaled
by the per-tick accuracy `jitter` draw and the parabolic arc offset
`100 * power * t * (1 - t)` is subtracted from y. -/
def Coconut.update (c : Coconut) (jitter : ℚ) : Coconut :=
  let fr := c.frames_remaining - 1
  if fr ≤ 0 then { c with frames_remaining := fr, alive := false }
  else
    let t' := c.t + c.speed * c.slingshot.power
    if t' ≥ 1 then { c with frames_remaining := fr, t := t', alive := false }
    else
      let base_x := (1 - t') * c.x + t' * c.target_x
      let base_y := (1 - t') * c.y + t' * c.target_y
      let arc_height := 100 * c.slingshot.power
      let arc_offset := arc_height * t' * (1 - t')
      { c with frames_remaining := fr, t := t', x := base_x * jitter, y := base_y - arc_offset }

/-!  ## Retail agent (`core/retail_agent.py`)  -/

/-- The four behaviour weights of `RetailAgent.select_target`. -/
structure RetailWeights where
  spot_distance : ℚ
  success_history : ℚ
  mm_defense : ℚ
  crowd_following : ℚ

/-- The slice of a retail profile that `select_target` reads:
`traits.get("fomo_threshold", 0)`. -/
structure RetailProfile where
  fomo_threshold : ℚ

/-- The fixed fallback weights used when no profile is loaded. -/
def retail_default_weights : RetailWeights :=
  { spot_distance := 3/10, success_history := 2/10,
    mm_defense := 3/10, crowd_following := 2/10 }

/-- `RetailAgent._update_game_state_metrics` crowd size for one strike:
`int((hits + retail_juice * 10) / 2)`. -/
def crowd_size (tree_hits : ℚ → ℕ) (retail_juice : ℚ → ℚ) (s : ℚ) : ℤ :=
  pyInt (((tree_hits s : ℚ) + retail_juice s * 10) / 2)

/-- The weighted score `select_target` assigns to one strike. -/
def retail_strike_score (spot : ℚ) (mm_juice : ℚ → ℚ) (crowd : ℚ → ℤ)
    (w : RetailWeights) (target_history : List ℚ) (strike : ℚ) : ℚ :=
  let distance_score := 1 / (1 + |strike - spot| / 5)
  let history_score : ℚ := if strike ∈ pyLast target_history 5 then 1 else 0
  let mm_score := 1 - mm_juice strike
  let crowd_score := min 1 ((crowd strike : ℚ) / 5)
  distance_score * w.spot_distance + history_score * w.success_history
    + mm_score * w.mm_defense + crowd_score * w.crowd_following

/-- `RetailAgent.select_target` for one call: `weights = none` models an
absent profile weight set (falling back to the defaults), `profile` the
active profile for the FOMO roll (`fomo_draw`), `target_history` the
agent's rolling history before the call.  When `strikes` is empty the
score dict is empty and the source's fallback branch evaluates
`random.choice(strikes)` on the empty list, raising `IndexError`,
modelled by `none`.  Otherwise it returns the first maximal-score strike
(after the optional 1.5x FOMO boost of the highest-crowd strike) and the
confidence `min(score, 1.0)`. -/
def select_target (spot : ℚ) (strikes : List ℚ) (tree_hits : ℚ → ℕ)
    (retail_juice mm_juice : ℚ → ℚ) (weights : Option RetailWeights)
    (profile : Option RetailProfile) (target_history : List ℚ)
    (fomo_draw : ℚ) : Option (ℚ × ℚ) :=
  let w := weights.getD retail_default_weights
  let crowd := crowd_size tree_hits retail_juice
  let score := retail_strike_score spot mm_juice crowd w target_history
  match strikes with
  | [] => none
  | s0 :: rest =>
    let fomo : Bool :=
      match profile with
      | some p => if fomo_draw < p.fomo_threshold then true else false
      | none => false
    let max_crowd_strike := pickMaxBy (fun s => ((crowd s : ℚ))) s0 rest
    let adj : ℚ → ℚ :=
      fun s => if fomo = true ∧ s = max_crowd_strike then score s * (3/2) else score s
    let target := pickMaxBy adj s0 rest
    some (target, min (adj target) 1)

/-!  ## Game engine (`GameEngine` in `core/engine.py`)  -/

/-- The engine state over the fields the claims touch.  The strike-keyed
dicts `tree_hits`, `retail_juice`, `mm_juice` are modelled as total
functions (they are constructed over exactly `valid_strikes` and only
ever indexed by snapped strikes). -/
structure GameEngine where
  width : ℤ
  height : ℤ
  valid_strikes : List ℚ
  tree_hits : ℚ → ℕ
  retail_juice : ℚ → ℚ
  mm_juice : ℚ → ℚ
  coconuts : List Coconut
  frame : ℕ
  trials : ℕ
  paused : Bool
  ai_retail : Bool
  ai_monkey : Bool
  spot : ℚ
  implied_vol : ℚ
  gamma : ℚ → ℚ
  slingshots : List (String × Slingshot)
  current_slingshot : Slingshot

/-- The oracle for one `GameEngine.update` tick: the market-derived
target list, the retail agent's fallback selection, the index drawn by
`random.choice` when the retail AI is off, the monkey agent's predicted
defense strikes, the uniform hit draw, the launch speed draw, and the
per-coconut accuracy jitter draws for this tick. -/
structure TickOracle where
  market_targets : List ℚ
  agent_target : ℚ
  rand_index : ℕ
  defense_strikes : List ℚ
  hit_draw : ℚ
  speed : ℚ
  jitter : ℕ → ℚ

/-- `GameEngine.__init__` over the modelled fields: strikes are sorted,
the aggregate maps start at zero over the universe, the current slingshot
is the catalog entry of the default name (`none` models the `KeyError`
when the default is not in the catalog). -/
def GameEngine.init (width height : ℤ) (strikes : List ℚ) (spot implied_vol : ℚ)
    (gamma : ℚ → ℚ) (trials : ℕ) (slingshots : List (String × Slingshot))
    (default_slingshot : String) : Option GameEngine :=
  match slingshots.lookup default_slingshot with
  | none => none
  | some s => some {
      width := width, height := height,
      valid_strikes := sortLe (fun a b => if a ≤ b then true else false) strikes,
      tree_hits := fun _ => 0, retail_juice := fun _ => 0, mm_juice := fun _ => 0,
      coconuts := [], frame := 0, trials := trials, paused := false,
      ai_retail := true, ai_monkey := true,
      spot := spot, implied_vol := implied_vol, gamma := gamma,
      slingshots := slingshots, current_slingshot := s }

/-- `GameEngine._get_tree_position`: snap the strike, then read the tree
coordinates laid out at engine construction (`start_x = 50`, spacing
`min(30, (WIDTH - 100) / (len + 1))`, `TREE_Y = HEIGHT - 120`). -/
def GameEngine.tree_position (e : GameEngine) (strike : ℚ) : Option (ℚ × ℚ) :=
  match get_valid_strike e.valid_strikes strike with
  | none => none
  | some s =>
    let spacing := min 30 (((e.width : ℚ) - 100) / (e.valid_strikes.length + 1))
    some (50 + (list_index s e.valid_strikes : ℚ) * spacing, (e.height : ℚ) - 120)

/-- `GameEngine._update_game_state`: snap the strike; on a hit fold the
outcome into the three aggregate maps, on a miss change nothing. -/
def GameEngine.update_game_state (e : GameEngine) (strike : ℚ) (hit : Bool)
    (retail mm : ℚ) : Option GameEngine :=
  match get_valid_strike e.valid_strikes strike with
  | none => none
  | some vs =>
    if hit then
      some { e with
        tree_hits := fun s => if s = vs then e.tree_hits s + 1 else e.tree_hits s,
        retail_juice := fun s => if s = vs then e.retail_juice s + retail else e.retail_juice s,
        mm_juice := fun s => if s = vs then e.mm_juice s + mm else e.mm_juice s }
    else some e

/-- The target-selection part of `GameEngine.launch_coconut`: with the
retail AI on, the first market-derived target if any (used unsnapped),
else the retail agent's selection snapped into the universe (the agent
itself raises on an empty universe, see `select_target`; its returned
strike is the oracle `agent_target`); with the retail AI off, a uniform
choice from `valid_strikes` (raising on an empty universe). -/
def GameEngine.select_launch_target (e : GameEngine) (r : TickOracle) : Option ℚ :=
  if e.ai_retail then
    match r.market_targets with
    | t :: _ => some t
    | [] =>
      if e.valid_strikes = [] then none
      else get_valid_strike e.valid_strikes r.agent_target
  else
    match e.valid_strikes with
    | [] => none
    | v :: vs => some ((v :: vs).getD (r.rand_index % (v :: vs).length) v)

/-- `GameEngine.launch_coconut`: `some none` is the source returning
`None` (trial cap reached), the outer `none` a propagated exception.  A
launched coconut starts at `(WIDTH // 2, 0)`, aims at the tree of its
target (x offset 10), and carries the precomputed outcome and a frame
budget of `dte * 60`. -/
def GameEngine.launch_coconut (e : GameEngine) (r : TickOracle) : Option (Option Coconut) :=
  if e.frame ≥ e.trials then some none
  else
    match GameEngine.select_launch_target e r with
    | none => none
    | some target =>
      match simulate_slingshot_hit e.valid_strikes e.implied_vol e.gamma
          e.current_slingshot e.ai_monkey r.defense_strikes r.hit_draw e.spot target with
      | none => none
      | some (hit, retail, mm) =>
        match GameEngine.tree_position e target with
        | none => none
        | some (tx, ty) =>
          some (some {
            strike := target,
            x := ((e.width / 2 : ℤ) : ℚ), y := 0,
            target_x := tx + 10, target_y := ty,
            slingshot := e.current_slingshot,
            t := 0, speed := r.speed,
            hit := hit, retail_juice := retail, mm_juice := mm,
            source_agent := if e.ai_retail then "retail" else "random",
            alive := true,
            frames_remaining := e.current_slingshot.dte * 60 })

/-- The per-tick pass over the live coconuts of `GameEngine.update`:
each coconut is advanced once; a coconut that died is folded into the
aggregates and dropped, a live one is kept.  `i` indexes the jitter
draws. -/
def step_coconuts_aux (jitter : ℕ → ℚ) : List Coconut → ℕ → GameEngine → Option GameEngine
  | [], _, acc => some acc
  | c :: rest, i, acc =>
    if (Coconut.update c (jitter i)).alive then
      step_coconuts_aux jitter rest (i + 1)
        { acc with coconuts := acc.coconuts ++ [Coconut.update c (jitter i)] }
    else
      match GameEngine.update_game_state acc (Coconut.update c (jitter i)).strike
          (Coconut.update c (jitter i)).hit (Coconut.update c (jitter i)).retail_juice
          (Coconut.update c (jitter i)).mm_juice with
      | none => none
      | some acc' => step_coconuts_aux jitter rest (i + 1) acc'

/-- Advance every live coconut for one tick (the loop over
`self.coconuts[:]` in `GameEngine.update`). -/
def GameEngine.step_coconuts (e : GameEngine) (jitter : ℕ → ℚ) : Option GameEngine :=
  step_coconuts_aux jitter e.coconuts 0 { e with coconuts := [] }

/-- `GameEngine.update`: a no-op when paused; otherwise launch (appending
the new coconut and incrementing `frame` if one was launched) and then
advance all live coconuts, folding finished ones into the aggregates. -/
def GameEngine.update (e : GameEngine) (r : TickOracle) : Option GameEngine :=
  if e.paused then some e
  else
    match GameEngine.launch_coconut e r with
    | none => none
    | some none => GameEngine.step_coconuts e r.jitter
    | some (some c) =>
      GameEngine.step_coconuts
        { e with coconuts := e.coconuts ++ [c], frame := e.frame + 1 } r.jitter

/-- `GameEngine.toggle_pause`. -/
def GameEngine.toggle_pause (e : GameEngine) : GameEngine :=
  { e with paused := !e.paused }

/-- `GameEngine.toggle_ai`. -/
def GameEngine.toggle_ai (e : GameEngine) (agent_type : String) : GameEngine :=
  if agent_type = "retail" then { e with ai_retail := !e.ai_retail }
  else if agent_type = "monkey" then { e with ai_monkey := !e.ai_monkey }
  else e

/-- `GameEngine.switch_slingshot`: switch to the catalog entry and report
`true` exactly when the name is a catalog key, otherwise report `false`
and change nothing. -/
def GameEngine.switch_slingshot (e : GameEngine) (slingshot_name : String) :
    Bool × GameEngine :=
  match e.slingshots.lookup slingshot_name with
  | some s => (true, { e with current_slingshot := s })
  | none => (false, e)

/-- `GameEngine.reset`: zero the aggregates, clear the live coconuts,
rewind the frame counter. -/
def GameEngine.reset (e : GameEngine) : GameEngine :=
  { e with tree_hits := fun _ => 0, retail_juice := fun _ => 0, mm_juice := fun _ => 0,
           coconuts := [], frame := 0 }

/-- The engine states reachable through the exposed control operations
from a constructed engine. -/
inductive Reachable : GameEngine → Prop
  | boot (width height : ℤ) (strikes : List ℚ) (spot implied_vol : ℚ)
      (gamma : ℚ → ℚ) (trials : ℕ) (slingshots : List (String × Slingshot))
      (default_slingshot : String) (e : GameEngine) :
      GameEngine.init width height strikes spot implied_vol gamma trials
        slingshots default_slingshot = some e → Reachable e
  | step (e : GameEngine) (r : TickOracle) (e' : GameEngine) :
      Reachable e → GameEngine.update e r = some e' → Reachable e'
  | pause (e : GameEngine) : Reachable e → Reachable (GameEngine.toggle_pause e)
  | tai (e : GameEngine) (a : String) : Reachable e → Reachable (GameEngine.toggle_ai e a)
  | sw (e : GameEngine) (nm : String) :
      Reachable e → Reachable (GameEngine.switch_slingshot e nm).2
  | rst (e : GameEngine) : Reachable e → Reachable (GameEngine.reset e)

/-- The strike universe `{610, ..., 646}` of the snapping test vector. -/
def strike_universe : List ℚ :=
  [610, 611, 612, 613, 614, 615, 616, 617, 618, 619,
   620, 621, 622, 623, 624, 625, 626, 627, 628, 629,
   630, 631, 632, 633, 634, 635, 636, 637, 638, 639,
   640, 641, 642, 643, 644, 645, 646]

/-- How many strikes of the universe carry a non-zero entry in any of the
three aggregate maps. -/
def nonzero_count (e : GameEngine) : ℕ :=
  (e.valid_strikes.filter (fun s =>
    if e.tree_hits s = 0 ∧ e.retail_juice s = 0 ∧ e.mm_juice s = 0
    then false else true)).length


/-!  ## Concrete instances used by witnesses and counterexamples  -/

/-- A concrete memory store: capacity 3, three stored memories. -/
def mlog_w : MemoryLogger :=
  { agent_name := "retail", max_memories := 3, memories :=
      [{ content := "a", importance := 1/2, timestamp := 0, references := 0 },
       { content := "b", importance := 9/10, timestamp := 0, references := 4 },
       { content := "c", importance := 1/10, timestamp := 0, references := 0 }] }

/-- `mlog_w` after appending a fourth memory at time 86400. -/
def mlog_w4 : MemoryLogger :=
  { agent_name := "retail", max_memories := 3, memories :=
      [{ content := "a", importance := 1/2, timestamp := 0, references := 0 },
       { content := "b", importance := 9/10, timestamp := 0, references := 4 },
       { content := "c", importance := 1/10, timestamp := 0, references := 0 },
       { content := "d", importance := 7/10, timestamp := 86400, references := 0 }] }

/-- A concrete slingshot: power 1, accuracy 1, five days to expiry. -/
def sling_w : Slingshot :=
  { name := "standard", power := 1, accuracy := 1, dte := 5, option_type := "call" }

/-- A concrete launched coconut flying from `(640, 0)` toward `(60, 600)`. -/
def coco_w : Coconut :=
  { strike := 630, x := 640, y := 0, target_x := 60, target_y := 600,
    slingshot := sling_w, t := 0, speed := 1/50, hit := true,
    retail_juice := 3/10, mm_juice := 7/10, source_agent := "retail",
    alive := true, frames_remaining := 300 }

/-- A freshly constructed engine with a one-strike universe and a trial
cap of zero. -/
def engine_w : GameEngine :=
  { width := 1280, height := 720, valid_strikes := [630],
    tree_hits := fun _ => 0, retail_juice := fun _ => 0, mm_juice := fun _ => 0,
    coconuts := [], frame := 0, trials := 0, paused := false,
    ai_retail := true, ai_monkey := true, spot := 628, implied_vol := 10,
    gamma := fun _ => 1/2, slingshots := [("standard", sling_w)],
    current_slingshot := sling_w }

/-- A concrete tick oracle. -/
def oracle_w : TickOracle :=
  { market_targets := [630], agent_target := 630, rand_index := 0,
    defense_strikes := [], hit_draw := 0, speed := 3/100, jitter := fun _ => 1 }

/-- A one-memory store whose memory matches no context string. -/
def mlog_c7 : MemoryLogger :=
  { agent_name := "retail", max_memories := 100,
    memories := [{ content := "a", importance := 1, timestamp := 0, references := 0 }] }

/-- The slingshot of the end-to-end scenario: power 20, accuracy 1, five
days to expiry, calls. -/
def sling_c4 : Slingshot :=
  { name := "standard", power := 20, accuracy := 1, dte := 5, option_type := "call" }

/-- The tick oracle of the end-to-end scenario: the market proposes
strike 630, no defended strikes, hit draw 0, launch speed 0.03, jitter 1
(the only draw possible at accuracy 1). -/
def oracle_c4 : TickOracle :=
  { market_targets := [630], agent_target := 630, rand_index := 0,
    defense_strikes := [], hit_draw := 0, speed := 3/100, jitter := fun _ => 1 }

/-- The initial engine of the end-to-end scenario:
`valid_strikes = [625, 630, 635]`, spot 628, equal gamma 0.5 at every
strike, `TRIALS = 1`. -/
def engine0_c4 : Option GameEngine :=
  GameEngine.init 1280 720 [625, 630, 635] 628 10 (fun _ => 1/2) 1
    [("standard", sling_c4)] "standard"

/-- The observation of one scenario engine state: frame, number of live coconuts,
and the three aggregate maps sampled on the strike universe. -/
def agg_snapshot (e : GameEngine) : ℕ × ℕ × List ℕ × List ℚ × List ℚ :=
  (e.frame, e.coconuts.length,
   [e.tree_hits 625, e.tree_hits 630, e.tree_hits 635],
   [e.retail_juice 625, e.retail_juice 630, e.retail_juice 635],
   [e.mm_juice 625, e.mm_juice 630, e.mm_juice 635])

/-!  ## Helper lemmas  -/

/-- Unfold one step of `pickMinBy`. -/
theorem pickMinBy_cons (f : ℚ → ℚ) (x y : ℚ) (ys : List ℚ) :
    pickMinBy f x (y :: ys) = pickMinBy f (if f y < f x then y else x) ys := rfl

/-- `pickMinBy` returns the seed or a list element. -/
theorem pickMinBy_mem (f : ℚ → ℚ) (x : ℚ) (xs : List ℚ) :
    pickMinBy f x xs = x ∨ pickMinBy f x xs ∈ xs := by
  induction xs generalizing x with
  | nil => left; rfl
  | cons y ys ih =>
    rw [pickMinBy_cons]
    by_cases h : f y < f x
    · rw [if_pos h]
      rcases ih y with h1 | h1
      · right; rw [h1]; exact List.mem_cons_self _ _
      · right; exact List.mem_cons_of_mem _ h1
    · rw [if_neg h]
      rcases ih x with h1 | h1
      · left; exact h1
      · right; exact List.mem_cons_of_mem _ h1

/-- `pickMinBy` minimises the key over the seed and the list. -/
theorem pickMinBy_le (f : ℚ → ℚ) (x : ℚ) (xs : List ℚ) :
    f (pickMinBy f x xs) ≤ f x ∧ ∀ v ∈ xs, f (pickMinBy f x xs) ≤ f v := by
  induction xs generalizing x with
  | nil => exact ⟨le_refl _, by simp⟩
  | cons y ys ih =>
    rw [pickMinBy_cons]
    by_cases h : f y < f x
    · rw [if_pos h]
      obtain ⟨h1, h2⟩ := ih y
      refine ⟨le_of_lt (lt_of_le_of_lt h1 h), ?_⟩
      intro v hv
      rcases List.mem_cons.mp hv with rfl | hv
      · exact h1
      · exact h2 v hv
    · rw [if_neg h]
      obtain ⟨h1, h2⟩ := ih x
      refine ⟨h1, ?_⟩
      intro v hv
      rcases List.mem_cons.mp hv with rfl | hv
      · exact le_trans h1 (not_lt.mp h)
      · exact h2 v hv

/-- Inserting with `insertLe` permutes consing. -/
theorem insertLe_perm {α : Type} (le : α → α → Bool) (x : α) (l : List α) :
    List.Perm (insertLe le x l) (x :: l) := by
  induction l with
  | nil => exact List.Perm.refl _
  | cons y ys ih =>
    simp only [insertLe]
    by_cases h : le x y = true
    · rw [if_pos h]
    · rw [if_neg h]
      exact (List.Perm.cons y ih).trans (List.Perm.swap x y ys)

/-- `sortLe` permutes its input. -/
theorem sortLe_perm {α : Type} (le : α → α → Bool) (l : List α) :
    List.Perm (sortLe le l) l := by
  induction l with
  | nil => exact List.Perm.refl _
  | cons x xs ih => exact (insertLe_perm le x (sortLe le xs)).trans (List.Perm.cons x ih)

/-- `insertLe` preserves sortedness for a transitive total boolean order. -/
theorem insertLe_pairwise {α : Type} (le : α → α → Bool)
    (htrans : ∀ a b c, le a b = true → le b c = true → le a c = true)
    (htotal : ∀ a b, le a b = true ∨ le b a = true)
    (x : α) (l : List α) (hl : l.Pairwise (fun a b => le a b = true)) :
    (insertLe le x l).Pairwise (fun a b => le a b = true) := by
  induction l with
  | nil => simp [insertLe]
  | cons y ys ih =>
    rcases List.pairwise_cons.mp hl with ⟨hy, hys⟩
    simp only [insertLe]
    by_cases h : le x y = true
    · rw [if_pos h]
      refine List.pairwise_cons.mpr ⟨?_, hl⟩
      intro b hb
      rcases List.mem_cons.mp hb with rfl | hb
      · exact h
      · exact htrans x y b h (hy b hb)
    · rw [if_neg h]
      refine List.pairwise_cons.mpr ⟨?_, ih hys⟩
      intro b hb
      have hmem := (insertLe_perm le x ys).mem_iff.mp hb
      rcases List.mem_cons.mp hmem with rfl | hb'
      · rcases htotal b y with hxy | hyx
        · exact absurd hxy h
        · exact hyx
      · exact hy b hb'

/-- `sortLe` sorts with respect to a transitive total boolean order. -/
theorem sortLe_pairwise {α : Type} (le : α → α → Bool)
    (htrans : ∀ a b c, le a b = true → le b c = true → le a c = true)
    (htotal : ∀ a b, le a b = true ∨ le b a = true)
    (l : List α) :
    (sortLe le l).Pairwise (fun a b => le a b = true) := by
  induction l with
  | nil => simp [sortLe]
  | cons x xs ih => exact insertLe_pairwise le htrans htotal x _ ih

/-- Evaluate a rational absolute value through a sign test. -/
theorem abs_rat_eval (q : ℚ) : |q| = if q < 0 then -q else q := by
  by_cases h : q < 0
  · rw [if_pos h, abs_of_neg h]
  · rw [if_neg h, abs_of_nonneg (not_lt.mp h)]

/-- The key specification of `curate_memories`: it keeps
`min max_memories (number of memories)` memories, and every dropped
memory scores no higher than every kept one. -/
theorem curate_spec (now : ℚ) (st : MemoryLogger) :
    ∃ dropped : List Memory,
      List.Perm ((curate_memories now st).memories ++ dropped) st.memories
      ∧ (curate_memories now st).memories.length = min st.max_memories st.memories.length
      ∧ ∀ kept ∈ (curate_memories now st).memories, ∀ d ∈ dropped,
          Memory.score now d ≤ Memory.score now kept := by
  classical
  set le : Memory → Memory → Bool :=
    fun a b => if Memory.score now b ≤ Memory.score now a then true else false with hle
  have hiff : ∀ a b, le a b = true ↔ Memory.score now b ≤ Memory.score now a := by
    intro a b
    by_cases h : Memory.score now b ≤ Memory.score now a <;> simp [hle, h]
  have htrans : ∀ a b c, le a b = true → le b c = true → le a c = true := by
    intro a b c hab hbc
    exact (hiff a c).mpr (le_trans ((hiff b c).mp hbc) ((hiff a b).mp hab))
  have htotal : ∀ a b, le a b = true ∨ le b a = true := by
    intro a b
    rcases le_total (Memory.score now b) (Memory.score now a) with h | h
    · exact Or.inl ((hiff a b).mpr h)
    · exact Or.inr ((hiff b a).mpr h)
  set sorted := sortLe le st.memories with hsorted
  have hperm : List.Perm sorted st.memories := sortLe_perm le st.memories
  refine ⟨sorted.drop st.max_memories, ?_, ?_, ?_⟩
  · have : (curate_memories now st).memories = sorted.take st.max_memories := rfl
    rw [this, List.take_append_drop]
    exact hperm
  · have : (curate_memories now st).memories = sorted.take st.max_memories := rfl
    rw [this, List.length_take, hperm.length_eq]
  · intro kept hkept d hd
    have hpw : sorted.Pairwise (fun a b => le a b = true) :=
      sortLe_pairwise le htrans htotal st.memories
    have hsplit : sorted.take st.max_memories ++ sorted.drop st.max_memories = sorted :=
      List.take_append_drop _ _
    rw [← hsplit] at hpw
    have := (List.pairwise_append.mp hpw).2.2 kept hkept d hd
    exact (hiff kept d).mp this

/-- C3: every `add_memory` call returns with at most `max_memories`
stored memories, and curation keeps exactly `min max_memories (count)`
memories, each scoring (importance x (1 + references/10) x age decay,
with age decay `1/(1 + age/86400)`) at least as high as every discarded
memory. -/
theorem C3_memory_capacity_and_curation :
    (∀ (now : ℚ) (st : MemoryLogger) (content : String) (importance : ℚ),
        (add_memory now st content importance).memories.length ≤ st.max_memories)
    ∧ (∀ (now : ℚ) (st : MemoryLogger), ∃ dropped : List Memory,
        List.Perm ((curate_memories now st).memories ++ dropped) st.memories
        ∧ (curate_memories now st).memories.length = min st.max_memories st.memories.length
        ∧ ∀ kept ∈ (curate_memories now st).memories, ∀ d ∈ dropped,
            Memory.score now d ≤ Memory.score now kept) := by
  constructor
  · intro now st content importance
    simp only [add_memory]
    by_cases h : st.memories.length + 1 > st.max_memories
    · have hlen := (curate_spec now { st with memories :=
        st.memories ++ [{ content := content, importance := importance,
                          timestamp := now, references := 0 }] }).choose_spec.2.1
      simp only [List.length_append, List.length_singleton] at h hlen ⊢
      rw [if_pos h]
      rw [hlen]
      exact min_le_left _ _
    · simp only [List.length_append, List.length_singleton] at h ⊢
      rw [if_neg h]
      simpa using not_lt.mp h
  · exact curate_spec

/-- Witness for C3 at a concrete store of capacity 3 holding 3 memories. -/
theorem C3_memory_capacity_and_curation_witness :
    (add_memory 86400 mlog_w "d" (7/10)).memories.length ≤ mlog_w.max_memories
    ∧ ∃ dropped : List Memory,
        List.Perm ((curate_memories 86400 mlog_w4).memories ++ dropped) mlog_w4.memories
        ∧ (curate_memories 86400 mlog_w4).memories.length
            = min mlog_w4.max_memories mlog_w4.memories.length
        ∧ ∀ kept ∈ (curate_memories 86400 mlog_w4).memories, ∀ d ∈ dropped,
            Memory.score 86400 d ≤ Memory.score 86400 kept :=
  ⟨C3_memory_capacity_and_curation.1 86400 mlog_w "d" (7/10),
   C3_memory_capacity_and_curation.2 86400 mlog_w4⟩

/-- C9: strike snapping returns a member of the non-empty universe at
minimal absolute distance, returns members unchanged, and on the
universe 610..646 snaps 607 to 610 and 628.4 to 628. -/
theorem C9_strike_snapping :
    (∀ (valid : List ℚ) (x : ℚ), valid ≠ [] →
      ∃ s, get_valid_strike valid x = some s ∧ s ∈ valid ∧ ∀ v ∈ valid, |s - x| ≤ |v - x|)
    ∧ (∀ (valid : List ℚ) (x : ℚ), x ∈ valid → get_valid_strike valid x = some x)
    ∧ get_valid_strike strike_universe 607 = some 610
    ∧ get_valid_strike strike_universe (3142/5) = some 628 := by
  refine ⟨?_, ?_, ?_, ?_⟩
  · intro valid x hne
    by_cases hx : x ∈ valid
    · refine ⟨x, by simp [get_valid_strike, hx], hx, ?_⟩
      intro v _
      simp
    · match valid, hne with
      | v :: vs, _ =>
        refine ⟨pickMinBy (fun y => |y - x|) v vs, by simp [get_valid_strike, hx], ?_, ?_⟩
        · rcases pickMinBy_mem (fun y => |y - x|) v vs with h | h
          · rw [h]; exact List.mem_cons_self _ _
          · exact List.mem_cons_of_mem _ h
        · intro w hw
          obtain ⟨h1, h2⟩ := pickMinBy_le (fun y => |y - x|) v vs
          rcases List.mem_cons.mp hw with rfl | hw
          · exact h1
          · exact h2 w hw
  · intro valid x hx
    simp [get_valid_strike, hx]
  · norm_num [get_valid_strike, strike_universe, pickMinBy, abs_rat_eval]
  · norm_num [get_valid_strike, strike_universe, pickMinBy, abs_rat_eval]

/-- Witness for C9 on the universe of the test vector. -/
theorem C9_strike_snapping_witness :
    (∃ s, get_valid_strike strike_universe 607 = some s ∧ s ∈ strike_universe
      ∧ ∀ v ∈ strike_universe, |s - 607| ≤ |v - 607|)
    ∧ get_valid_strike strike_universe 628 = some 628 :=
  ⟨C9_strike_snapping.1 strike_universe 607 (by simp [strike_universe]),
   C9_strike_snapping.2.1 strike_universe 628 (by norm_num [strike_universe])⟩

/-- `_update_game_state` only touches the aggregate maps. -/
theorem update_game_state_frame (e : GameEngine) (strike : ℚ) (hit : Bool)
    (retail mm : ℚ) (e' : GameEngine)
    (h : GameEngine.update_game_state e strike hit retail mm = some e') :
    e'.frame = e.frame ∧ e'.trials = e.trials ∧ e'.paused = e.paused := by
  unfold GameEngine.update_game_state at h
  cases hgv : get_valid_strike e.valid_strikes strike with
  | none => rw [hgv] at h; cases h
  | some vs =>
    rw [hgv] at h
    dsimp only at h
    by_cases hh : hit = true
    · rw [if_pos hh, Option.some.injEq] at h
      rw [← h]
      exact ⟨rfl, rfl, rfl⟩
    · rw [if_neg hh, Option.some.injEq] at h
      rw [← h]
      exact ⟨rfl, rfl, rfl⟩

/-- The per-tick coconut pass only touches the aggregates and the live
list. -/
theorem step_coconuts_aux_frame (jitter : ℕ → ℚ) (cs : List Coconut) :
    ∀ (i : ℕ) (acc e' : GameEngine), step_coconuts_aux jitter cs i acc = some e' →
      e'.frame = acc.frame ∧ e'.trials = acc.trials ∧ e'.paused = acc.paused := by
  induction cs with
  | nil =>
    intro i acc e' h
    simp only [step_coconuts_aux, Option.some.injEq] at h
    rw [← h]
    exact ⟨rfl, rfl, rfl⟩
  | cons c rest ih =>
    intro i acc e' h
    simp only [step_coconuts_aux] at h
    by_cases halive : (Coconut.update c (jitter i)).alive = true
    · rw [if_pos halive] at h
      have := ih (i + 1)
        { acc with coconuts := acc.coconuts ++ [Coconut.update c (jitter i)] } e' h
      exact this
    · rw [if_neg halive] at h
      cases hres : GameEngine.update_game_state acc (Coconut.update c (jitter i)).strike
          (Coconut.update c (jitter i)).hit (Coconut.update c (jitter i)).retail_juice
          (Coconut.update c (jitter i)).mm_juice with
      | none => rw [hres] at h; cases h
      | some acc' =>
        rw [hres] at h
        obtain ⟨h1, h2, h3⟩ := ih (i + 1) acc' e' h
        obtain ⟨g1, g2, g3⟩ := update_game_state_frame acc _ _ _ _ acc' hres
        exact ⟨h1.trans g1, h2.trans g2, h3.trans g3⟩

/-- `step_coconuts` preserves the frame counter, the trial cap and the
pause flag. -/
theorem step_coconuts_frame (e : GameEngine) (jitter : ℕ → ℚ) (e' : GameEngine)
    (h : GameEngine.step_coconuts e jitter = some e') :
    e'.frame = e.frame ∧ e'.trials = e.trials ∧ e'.paused = e.paused := by
  unfold GameEngine.step_coconuts at h
  have := step_coconuts_aux_frame jitter e.coconuts 0 { e with coconuts := [] } e' h
  exact this

/-- At the trial cap, `launch_coconut` returns the source's `None`. -/
theorem launch_at_cap (e : GameEngine) (r : TickOracle) (h : e.frame = e.trials) :
    GameEngine.launch_coconut e r = some none := by
  unfold GameEngine.launch_coconut
  rw [if_pos (le_of_eq h.symm)]

/-- A coconut is only launched strictly below the trial cap. -/
theorem launch_lt (e : GameEngine) (r : TickOracle) (c : Coconut)
    (h : GameEngine.launch_coconut e r = some (some c)) : e.frame < e.trials := by
  by_contra hge
  unfold GameEngine.launch_coconut at h
  rw [if_pos (not_lt.mp hge)] at h
  simp at h

/-- One tick preserves the trial cap and moves the frame counter by zero
or, below the cap, by one. -/
theorem update_frame (e : GameEngine) (r : TickOracle) (e' : GameEngine)
    (h : GameEngine.update e r = some e') :
    e'.trials = e.trials
    ∧ (e'.frame = e.frame ∨ (e.frame < e.trials ∧ e'.frame = e.frame + 1)) := by
  unfold GameEngine.update at h
  by_cases hp : e.paused = true
  · rw [if_pos hp, Option.some.injEq] at h
    rw [← h]
    exact ⟨rfl, Or.inl rfl⟩
  · rw [if_neg hp] at h
    cases hl : GameEngine.launch_coconut e r with
    | none => rw [hl] at h; cases h
    | some oc =>
      rw [hl] at h
      cases oc with
      | none =>
        obtain ⟨h1, h2, _⟩ := step_coconuts_frame e r.jitter e' h
        exact ⟨h2, Or.inl h1⟩
      | some c =>
        obtain ⟨h1, h2, _⟩ := step_coconuts_frame _ r.jitter e' h
        exact ⟨h2, Or.inr ⟨launch_lt e r c hl, h1⟩⟩

/-- C8: the frame counter never exceeds the trial cap on any reachable
engine state; at the cap, `update` launches no coconut and leaves the
frame unchanged; and every tick that does launch a coconut increments
the frame by exactly one. -/
theorem C8_frame_invariant :
    (∀ e : GameEngine, Reachable e → e.frame ≤ e.trials)
    ∧ (∀ (e : GameEngine) (r : TickOracle), e.frame = e.trials →
        GameEngine.launch_coconut e r = some none)
    ∧ (∀ (e : GameEngine) (r : TickOracle) (e' : GameEngine),
        GameEngine.update e r = some e' → e.frame = e.trials → e'.frame = e.frame)
    ∧ (∀ (e : GameEngine) (r : TickOracle) (e' : GameEngine) (c : Coconut),
        GameEngine.update e r = some e' → e.paused = false →
        GameEngine.launch_coconut e r = some (some c) → e'.frame = e.frame + 1) := by
  refine ⟨?_, ?_, ?_, ?_⟩
  · intro e he
    induction he with
    | boot width height strikes spot implied_vol gamma trials slingshots dflt e hinit =>
      unfold GameEngine.init at hinit
      cases hlk : slingshots.lookup dflt with
      | none => rw [hlk] at hinit; cases hinit
      | some s =>
        rw [hlk, Option.some.injEq] at hinit
        rw [← hinit]
        exact Nat.zero_le _
    | step e r e' _ hupd ih =>
      obtain ⟨h1, h2⟩ := update_frame e r e' hupd
      rcases h2 with h2 | ⟨h2, h3⟩
      · rw [h1, h2]; exact ih
      · rw [h1, h3]; exact h2
    | pause e _ ih => exact ih
    | tai e a _ ih =>
      unfold GameEngine.toggle_ai
      by_cases h1 : a = "retail"
      · rw [if_pos h1]; exact ih
      · rw [if_neg h1]
        by_cases h2 : a = "monkey"
        · rw [if_pos h2]; exact ih
        · rw [if_neg h2]; exact ih
    | sw e nm _ ih =>
      unfold GameEngine.switch_slingshot
      cases hlk : e.slingshots.lookup nm with
      | none => exact ih
      | some s => exact ih
    | rst e _ ih => exact Nat.zero_le _
  · exact launch_at_cap
  · intro e r e' hupd hcap
    unfold GameEngine.update at hupd
    by_cases hp : e.paused = true
    · rw [if_pos hp, Option.some.injEq] at hupd
      rw [← hupd]
    · rw [if_neg hp, launch_at_cap e r hcap] at hupd
      exact (step_coconuts_frame e r.jitter e' hupd).1
  · intro e r e' c hupd hp hl
    unfold GameEngine.update at hupd
    rw [if_neg (by rw [hp]; exact Bool.false_ne_true), hl] at hupd
    exact (step_coconuts_frame _ r.jitter e' hupd).1

/-- Witness for C8 on a freshly constructed engine at its trial cap. -/
theorem C8_frame_invariant_witness :
    engine_w.frame ≤ engine_w.trials
    ∧ GameEngine.launch_coconut engine_w oracle_w = some none
    ∧ (GameEngine.update engine_w oracle_w = some engine_w → engine_w.frame = engine_w.trials →
        engine_w.frame = engine_w.frame) :=
  ⟨C8_frame_invariant.1 engine_w
      (Reachable.boot 1280 720 [630] 628 10 (fun _ => 1/2) 0 [("standard", sling_w)]
        "standard" engine_w rfl),
   C8_frame_invariant.2.1 engine_w oracle_w rfl,
   fun hupd hcap => C8_frame_invariant.2.2.1 engine_w oracle_w engine_w hupd hcap⟩

/-- C10: `switch_slingshot` succeeds and installs the catalog entry
exactly when the name is a catalog key, and otherwise reports failure
leaving the engine unchanged. -/
theorem C10_switch_slingshot (e : GameEngine) (nm : String) :
    ((GameEngine.switch_slingshot e nm).1 = (e.slingshots.lookup nm).isSome)
    ∧ (∀ s, e.slingshots.lookup nm = some s →
        GameEngine.switch_slingshot e nm = (true, { e with current_slingshot := s }))
    ∧ (e.slingshots.lookup nm = none → GameEngine.switch_slingshot e nm = (false, e)) := by
  refine ⟨?_, ?_, ?_⟩
  · cases h : e.slingshots.lookup nm <;> simp [GameEngine.switch_slingshot, h]
  · intro s h
    simp [GameEngine.switch_slingshot, h]
  · intro h
    simp [GameEngine.switch_slingshot, h]

/-- Witness for C10: switching to the catalog entry of `engine_w`. -/
theorem C10_switch_slingshot_witness :
    GameEngine.switch_slingshot engine_w "standard"
      = (true, { engine_w with current_slingshot := sling_w }) :=
  (C10_switch_slingshot engine_w "standard").2.1 sling_w rfl

/-- C5 (the failing half): on a game state whose strike list is empty the
source's fallback branch evaluates `random.choice` on the empty strike
list and raises `IndexError` instead of returning a default selection
with confidence 0.5 — `select_target` aborts (`none`) for every spot,
aggregate state, weight set (also the no-profile default), profile and
history. -/
theorem C5_select_target_empty_raises (spot : ℚ) (tree_hits : ℚ → ℕ)
    (retail_juice mm_juice : ℚ → ℚ) (weights : Option RetailWeights)
    (profile : Option RetailProfile) (target_history : List ℚ) (fomo_draw : ℚ) :
    select_target spot [] tree_hits retail_juice mm_juice weights profile
      target_history fomo_draw = none := rfl

/-- C6 (amended): a non-terminal in-flight update interpolates from the
coconut's *current* position (not its launch point) toward the target,
scales the x-interpolation by the jitter draw and subtracts the parabolic
arc offset from y. -/
theorem C6_coconut_inflight_update (c : Coconut) (jitter : ℚ)
    (h1 : 0 < c.frames_remaining - 1)
    (h2 : c.t + c.speed * c.slingshot.power < 1) :
    (Coconut.update c jitter).t = c.t + c.speed * c.slingshot.power
    ∧ (Coconut.update c jitter).x
        = ((1 - (c.t + c.speed * c.slingshot.power)) * c.x
            + (c.t + c.speed * c.slingshot.power) * c.target_x) * jitter
    ∧ (Coconut.update c jitter).y
        = (1 - (c.t + c.speed * c.slingshot.power)) * c.y
            + (c.t + c.speed * c.slingshot.power) * c.target_y
            - 100 * c.slingshot.power * (c.t + c.speed * c.slingshot.power)
              * (1 - (c.t + c.speed * c.slingshot.power))
    ∧ (Coconut.update c jitter).alive = c.alive
    ∧ (Coconut.update c jitter).frames_remaining = c.frames_remaining - 1 := by
  have hfr : ¬ (c.frames_remaining - 1 ≤ 0) := not_le.mpr h1
  have ht : ¬ (c.t + c.speed * c.slingshot.power ≥ 1) := not_le.mpr h2
  unfold Coconut.update
  rw [if_neg hfr, if_neg ht]
  exact ⟨rfl, rfl, rfl, rfl, rfl⟩

/-- Witness for C6 (amended) on a concrete first in-flight tick. -/
theorem C6_coconut_inflight_update_witness :
    (Coconut.update coco_w 1).t = coco_w.t + coco_w.speed * coco_w.slingshot.power
    ∧ (Coconut.update coco_w 1).x
        = ((1 - (coco_w.t + coco_w.speed * coco_w.slingshot.power)) * coco_w.x
            + (coco_w.t + coco_w.speed * coco_w.slingshot.power) * coco_w.target_x) * 1
    ∧ (Coconut.update coco_w 1).y
        = (1 - (coco_w.t + coco_w.speed * coco_w.slingshot.power)) * coco_w.y
            + (coco_w.t + coco_w.speed * coco_w.slingshot.power) * coco_w.target_y
            - 100 * coco_w.slingshot.power * (coco_w.t + coco_w.speed * coco_w.slingshot.power)
              * (1 - (coco_w.t + coco_w.speed * coco_w.slingshot.power))
    ∧ (Coconut.update coco_w 1).alive = coco_w.alive
    ∧ (Coconut.update coco_w 1).frames_remaining = coco_w.frames_remaining - 1 :=
  C6_coconut_inflight_update coco_w 1 (by norm_num [coco_w])
    (by norm_num [coco_w, sling_w])

/-- C6 (counterexample): after two in-flight ticks with the only possible
jitter draw for accuracy 1, the position no longer matches the linear
interpolation between the *launch* point and the target point at the
current progress `t`. -/
theorem C6_coconut_lerp_counterexample :
    ((Coconut.update (Coconut.update coco_w 1) 1)).alive = true
    ∧ 0 < ((Coconut.update (Coconut.update coco_w 1) 1)).frames_remaining
    ∧ ((Coconut.update (Coconut.update coco_w 1) 1)).t < 1
    ∧ ((Coconut.update (Coconut.update coco_w 1) 1)).x
        ≠ ((1 - ((Coconut.update (Coconut.update coco_w 1) 1)).t) * coco_w.x
            + ((Coconut.update (Coconut.update coco_w 1) 1)).t * coco_w.target_x) * 1 := by
  norm_num [Coconut.update, coco_w, sling_w]

/-- C7 (amended): `get_relevant_memories` increments the `references`
counter of every memory whose relevance came out strictly positive —
whether or not the memory is among the returned top-`limit` list — and
leaves zero-relevance memories untouched. -/
theorem C7_references_increment (st : MemoryLogger) (strike_str spot_str : String)
    (recent_success : Bool) (draws : ℕ → ℚ) (limit : ℕ) (i : ℕ) :
    ((get_relevant_memories st strike_str spot_str recent_success draws limit).2.memories)[i]?
      = (st.memories[i]?).map (fun m =>
          if memory_relevance strike_str spot_str recent_success (draws i) m > 0
          then { m with references := m.references + 1 } else m) := by
  unfold get_relevant_memories
  dsimp only
  rw [List.map_map, List.getElem?_map, List.getElem?_enum]
  cases st.memories[i]? <;> rfl

/-- C7 (counterexample): with a zero exploration draw and no contextual
match, the single considered memory has relevance 0 and its `references`
counter is *not* incremented by the retrieval call. -/
theorem C7_references_counterexample :
    ((get_relevant_memories mlog_c7 "625" "628" true (fun _ => 0) 5).2.memories.map
        Memory.references) = [0] := by
  have h1 : strContain "a" "625" = false := by decide
  have h2 : strContain "a" "628" = false := by decide
  have h3 : charsContain [charLower 'a'] ['s', 'u', 'c', 'c', 'e', 's', 's'] = false := by
    decide
  norm_num [get_relevant_memories, mlog_c7, memory_relevance, h1, h2, h3,
    List.enum, List.enumFrom]

/-- C1: for a target strike snapped into the valid universe (and an
option type from the catalog), the probability computed by
`simulate_slingshot_hit` is the clamp to `[0, 1]` of
`base * (1 - iv/100) * (1 - gamma/10) * (1/max(0.1, dte/30)) *
(1 + accuracy*0.2) * (1 + power*0.1) * option_mod`, with the base
`1/(1 + |spot - strike|)` halved when the monkey agent predicted the
strike, and `option_mod = 1.1` iff (call and spot>strike) or (put and
spot<strike); the hit outcome is the draw being strictly below this
probability. -/
theorem C1_hit_probability_model (valid : List ℚ) (implied_vol : ℚ) (gamma : ℚ → ℚ)
    (sling : Slingshot) (defense_strikes : List ℚ) (hit_draw spot strike : ℚ)
    (hmem : strike ∈ valid)
    (hopt : sling.option_type = "call" ∨ sling.option_type = "put") :
    final_hit_chance implied_vol (gamma strike) sling
        (if strike ∈ defense_strikes then true else false) spot strike
      = max 0 (min
          ((if strike ∈ defense_strikes
              then (1 / (1 + |spot - strike|)) * (1/2)
              else 1 / (1 + |spot - strike|))
            * (1 - implied_vol / 100) * (1 - gamma strike / 10)
            * (1 / max (1/10) ((sling.dte : ℚ) / 30))
            * (1 + sling.accuracy * (2/10)) * (1 + sling.power * (1/10))
            * (if (sling.option_type = "call" ∧ spot > strike)
                  ∨ (sling.option_type = "put" ∧ spot < strike)
                then 11/10 else 9/10)) 1)
    ∧ (simulate_slingshot_hit valid implied_vol gamma sling true defense_strikes
          hit_draw spot strike).map Prod.fst
        = some (if hit_draw < final_hit_chance implied_vol (gamma strike) sling
              (if strike ∈ defense_strikes then true else false) spot strike
            then true else false) := by
  constructor
  · unfold final_hit_chance
    by_cases hdef : strike ∈ defense_strikes <;>
      rcases hopt with h | h <;>
      simp [h, hdef]
  · unfold simulate_slingshot_hit get_valid_strike
    rw [if_pos hmem]
    rfl

/-- Witness for C1 at a concrete snapped, defended strike. -/
theorem C1_hit_probability_model_witness :
    final_hit_chance 10 ((fun _ => (1:ℚ)/2) (630:ℚ)) sling_w
        (if (630:ℚ) ∈ [(630:ℚ)] then true else false) 628 630
      = max 0 (min
          ((if (630:ℚ) ∈ [(630:ℚ)]
              then (1 / (1 + |(628:ℚ) - 630|)) * (1/2)
              else 1 / (1 + |(628:ℚ) - 630|))
            * (1 - 10 / 100) * (1 - (fun _ => (1:ℚ)/2) (630:ℚ) / 10)
            * (1 / max (1/10) ((sling_w.dte : ℚ) / 30))
            * (1 + sling_w.accuracy * (2/10)) * (1 + sling_w.power * (1/10))
            * (if (sling_w.option_type = "call" ∧ (628:ℚ) > 630)
                  ∨ (sling_w.option_type = "put" ∧ (628:ℚ) < 630)
                then 11/10 else 9/10)) 1)
    ∧ (simulate_slingshot_hit [(630:ℚ)] 10 (fun _ => (1:ℚ)/2) sling_w true [(630:ℚ)]
          0 628 630).map Prod.fst
        = some (if (0:ℚ) < final_hit_chance 10 ((fun _ => (1:ℚ)/2) (630:ℚ)) sling_w
              (if (630:ℚ) ∈ [(630:ℚ)] then true else false) 628 630
            then true else false) :=
  C1_hit_probability_model [630] 10 (fun _ => 1/2) sling_w [630] 0 628 630
    (by norm_num) (Or.inl rfl)

/-- C2: every resolved launch splits the juice (0.3 retail, 0.7 market
maker, summing to 1) on a hit and (0, 0) on a miss. -/
theorem C2_juice_split (valid : List ℚ) (implied_vol : ℚ) (gamma : ℚ → ℚ)
    (sling : Slingshot) (monkey_enabled : Bool) (defense_strikes : List ℚ)
    (hit_draw spot strike : ℚ) (hit : Bool) (retail mm : ℚ)
    (h : simulate_slingshot_hit valid implied_vol gamma sling monkey_enabled
        defense_strikes hit_draw spot strike = some (hit, retail, mm)) :
    (hit = true → retail = 3/10 ∧ mm = 7/10 ∧ retail + mm = 1)
    ∧ (hit = false → retail = 0 ∧ mm = 0) := by
  unfold simulate_slingshot_hit at h
  cases hgv : get_valid_strike valid strike with
  | none => rw [hgv] at h; cases h
  | some sp =>
    rw [hgv] at h
    dsimp only at h
    rw [Option.some.injEq, Prod.mk.injEq, Prod.mk.injEq] at h
    obtain ⟨hh, hr, hm⟩ := h
    by_cases hp : hit_draw < final_hit_chance implied_vol (gamma sp) sling
        (if monkey_enabled = true then (if sp ∈ defense_strikes then true else false)
          else false) spot sp
    · rw [if_pos hp] at hh hr hm
      subst hh
      simp only [if_pos rfl] at hr hm
      refine ⟨fun _ => ⟨?_, hm.symm, ?_⟩, fun hfalse => absurd hfalse (by decide)⟩
      · rw [← hr]; norm_num
      · rw [← hr, ← hm]; norm_num
    · rw [if_neg hp] at hh hr hm
      subst hh
      simp only [Bool.false_eq_true, if_false, ite_false] at hr hm
      exact ⟨fun htrue => absurd htrue (by decide), fun _ => ⟨hr.symm, hm.symm⟩⟩

/-- Witness for C2 at a concrete resolved hit. -/
theorem C2_juice_split_witness :
    ((true : Bool) = true → (3/10 : ℚ) = 3/10 ∧ (7/10 : ℚ) = 7/10 ∧ (3/10 : ℚ) + 7/10 = 1)
    ∧ ((true : Bool) = false → (3/10 : ℚ) = 0 ∧ (7/10 : ℚ) = 0) :=
  C2_juice_split [630] 0 (fun _ => 0) sling_w false [] 0 628 630 true (3/10) (7/10)
    (by norm_num [simulate_slingshot_hit, get_valid_strike, final_hit_chance,
      abs_rat_eval, sling_w])

/-- C4 (counterexample): in the scenario `valid_strikes = [625, 630,
635]`, spot 628, equal gamma, `TRIALS = 1`, one `update()` sets
`frame = 1` but *no* strike in the aggregate maps has received any
increment yet — the launched coconut is still in flight — refuting
"exactly one strike received a non-zero increment". -/
theorem C4_scenario_counterexample :
    ∃ e1, engine0_c4.bind (fun e0 => GameEngine.update e0 oracle_c4) = some e1
      ∧ e1.frame = 1 ∧ nonzero_count e1 = 0 := by
  have h : (engine0_c4.bind (fun e0 => GameEngine.update e0 oracle_c4)).map
      (fun e1 => (e1.frame, nonzero_count e1)) = some (1, 0) := by
    norm_num [engine0_c4, sling_c4, oracle_c4, GameEngine.init, GameEngine.update,
      GameEngine.launch_coconut, GameEngine.select_launch_target,
      GameEngine.tree_position, GameEngine.update_game_state, GameEngine.step_coconuts,
      step_coconuts_aux, Coconut.update, simulate_slingshot_hit, final_hit_chance,
      get_valid_strike, list_index, sortLe, insertLe, abs_rat_eval, nonzero_count,
      List.lookup]
  obtain ⟨e1, h1, h2⟩ := Option.map_eq_some'.mp h
  exact ⟨e1, h1, congrArg Prod.fst h2, congrArg Prod.snd h2⟩

/-- C4 (amended): in the scenario `valid_strikes = [625, 630, 635]`,
spot 628, equal gamma, `TRIALS = 1`: one `update()` gives `frame = 1`
with the single launched coconut still in flight and the aggregate maps
untouched; the second `update()` launches no further coconut (`frame`
stays 1) yet still drives the in-flight coconut to its terminal state,
at which point exactly one strike (the 630 hit) has received the
non-zero increments `(1, 0.3, 0.7)` in
`(tree_hits, retail_juice, mm_juice)`. -/
theorem C4_scenario_amended :
    (engine0_c4.bind (fun e0 => GameEngine.update e0 oracle_c4)).map
        (fun e1 => (agg_snapshot e1, e1.coconuts.map Coconut.t))
      = some ((1, 1, [0, 0, 0], [0, 0, 0], [0, 0, 0]), [3/5])
    ∧ (engine0_c4.bind (fun e0 => GameEngine.update e0 oracle_c4)).bind
        (fun e1 => (GameEngine.update e1 oracle_c4).map agg_snapshot)
      = some (1, 0, [0, 1, 0], [0, 3/10, 0], [0, 7/10, 0]) := by
  constructor <;>
    norm_num [engine0_c4, sling_c4, oracle_c4, GameEngine.init, GameEngine.update,
      GameEngine.launch_coconut, GameEngine.select_launch_target,
      GameEngine.tree_position, GameEngine.update_game_state, GameEngine.step_coconuts,
      step_coconuts_aux, Coconut.update, simulate_slingshot_hit, final_hit_chance,
      get_valid_strike, list_index, sortLe, insertLe, abs_rat_eval, agg_snapshot,
      List.lookup]
